import Mathlib

/-
Verification of the SDRAM controller in blip/rtl/sdram.py.

The RTL is shallowly embedded: every nmigen `m.d.sync` assignment becomes a
field of an explicit step function on a state record, with the language's
"later statement overrides earlier" rule applied where two conditional
blocks drive the same signal, and every `m.d.comb` output becomes a field of
an output record computed from the current state and inputs.  Machine
integers are Nat with explicit `% 2 ^ width` where the RTL truncates on
assignment; a signal declared `Signal(range(n))` has width `bitLen (n - 1)`
(nmigen's `bits_for`).
-/

namespace Blip

/-- Binary length of a natural number computed with structural fuel
(`bitLenAux n n` always has enough fuel); mirrors nmigen's `bits_for`,
the width of `Signal(range(n+1))` being `bitLen n`. -/
def bitLenAux : Nat → Nat → Nat
  | 0, _ => 0
  | fuel + 1, n => if n = 0 then 0 else bitLenAux fuel (n / 2) + 1

def bitLen (n : Nat) : Nat := bitLenAux n n

/-! ## PendingCounter (sdram.py lines 44-96)

`PendingCounter.__init__` stores `period`, `max_pending`, the two slack
biases (`bias_lo`/`bias_hi`, defaults 2 and 2), and derives
`max_pending_lo = max_pending + bias_lo` and
`max_pending_lohi = max_pending_lo + bias_hi`.
State registers: `timer : Signal(range(period+1))`,
`pending : Signal(range(max_pending_lohi+1), reset=bias_lo)`, plus the
internal one-bit registers `add`, `sub` and the outputs `o_any`, `o_full`. -/

structure PendingCounter where
  period : Nat
  max_pending : Nat
  bias_lo : Nat := 2
  bias_hi : Nat := 2
deriving DecidableEq, Repr

def PendingCounter.max_pending_lo (c : PendingCounter) : Nat :=
  c.max_pending + c.bias_lo

def PendingCounter.max_pending_lohi (c : PendingCounter) : Nat :=
  c.max_pending_lo + c.bias_hi

/-- Width of the `pending` signal: `Signal(range(max_pending_lohi+1))`. -/
def PendingCounter.pendW (c : PendingCounter) : Nat := bitLen c.max_pending_lohi

/-- Width of the `timer` signal: `Signal(range(period+1))`. -/
def PendingCounter.timW (c : PendingCounter) : Nat := bitLen c.period

structure PCState where
  timer : Nat
  pending : Nat
  add : Bool
  sub : Bool
  o_any : Bool
  o_full : Bool
deriving DecidableEq, Repr

def pcReset (c : PendingCounter) : PCState :=
  { timer := 0, pending := c.bias_lo % 2 ^ c.pendW,
    add := false, sub := false, o_any := false, o_full := false }

/-- One clock tick of `PendingCounter.elaborate`.  The sync assignments are,
in source order: `add` and `sub` cleared then `pending` updated from the
current `add`/`sub`; `sub` re-driven from `i_remove` (overriding the clear);
`timer` incremented, overridden to 0 with `add` set when
`timer == period`; `o_any`/`o_full` registered from the current `pending`.
`pending + add - sub` is evaluated two's-complement and truncated to the
signal width on assignment. -/
def pcStep (c : PendingCounter) (s : PCState) (i_remove : Bool) : PCState :=
  { timer := if s.timer = c.period then 0 else (s.timer + 1) % 2 ^ c.timW,
    pending :=
      (s.pending + (if s.add then 1 else 0) +
        (2 ^ c.pendW - (if s.sub then 1 else 0))) % 2 ^ c.pendW,
    add := decide (s.timer = c.period),
    sub := i_remove,
    o_any := decide (c.bias_lo < s.pending),
    o_full := decide (c.max_pending_lo ≤ s.pending) }

def pcRunFrom (c : PendingCounter) (s : PCState) (ins : List Bool) : PCState :=
  List.foldl (pcStep c) s ins

def pcRun (c : PendingCounter) (ins : List Bool) : PCState :=
  pcRunFrom c (pcReset c) ins

/-- The environment assumptions of the claims, checked at every step of a
finite input trace: `i_remove` is only asserted while `o_any` reads true,
and the scheduled increment register is never set while `pending` sits at
the absolute ceiling `max_pending_lohi`. -/
def pcOkFrom (c : PendingCounter) : PCState → List Bool → Bool
  | _, [] => true
  | s, i :: rest =>
    ((!i || s.o_any) && (!s.add || decide (s.pending ≠ c.max_pending_lohi))) &&
      pcOkFrom c (pcStep c s i) rest

def pcOk (c : PendingCounter) (ins : List Bool) : Bool :=
  pcOkFrom c (pcReset c) ins

def pcTraceF (c : PendingCounter) : PCState → (Nat → Bool) → Nat → PCState
  | s, _, 0 => s
  | s, ins, t + 1 => pcTraceF c (pcStep c s (ins 0)) (fun n => ins (n + 1)) t

def pcTrace (c : PendingCounter) (ins : Nat → Bool) (t : Nat) : PCState :=
  pcTraceF c (pcReset c) ins t

/-- The instance exercised by `bmc_pending_counter`: `PendingCounter(3, 5)`
with the default slack biases, so `max_pending_lo = 7`,
`max_pending_lohi = 9`, a 4-bit `pending` and a 2-bit `timer`. -/
def pcC : PendingCounter := { period := 3, max_pending := 5 }

theorem pcTraceF_succ (c : PendingCounter) :
    ∀ (t : Nat) (s : PCState) (ins : Nat → Bool),
      pcTraceF c s ins (t + 1) = pcStep c (pcTraceF c s ins t) (ins t) := by
  intro t
  induction t with
  | zero => intro s ins; rfl
  | succ t ih =>
    intro s ins
    show pcTraceF c (pcStep c s (ins 0)) (fun n => ins (n + 1)) (t + 1) = _
    rw [ih]
    rfl

/-- Strengthened inductive invariant for `PendingCounter(3, 5)`: the backlog
never leaves `[0, 9]`, a registered removal finds at least one unit above the
representable minimum, and `o_any` overapproximates the backlog by at most
the one-cycle lag absorbed by `bias_lo`. -/
def InvPC (s : PCState) : Prop :=
  s.pending ≤ 9 ∧ (s.sub = true → 1 ≤ s.pending) ∧ (s.o_any = true → 2 ≤ s.pending)

theorem pcStep_pcC (s : PCState) (i : Bool) :
    pcStep pcC s i =
      { timer := if s.timer = 3 then 0 else (s.timer + 1) % 4,
        pending :=
          (s.pending + (if s.add then 1 else 0) + (16 - (if s.sub then 1 else 0))) % 16,
        add := decide (s.timer = 3),
        sub := i,
        o_any := decide (2 < s.pending),
        o_full := decide (7 ≤ s.pending) } := rfl

theorem invPC_preserved (s : PCState) (i : Bool) (hInv : InvPC s)
    (h1 : i = true → s.o_any = true) (h2 : s.add = true → s.pending ≠ 9) :
    InvPC (pcStep pcC s i) := by
  obtain ⟨tm, p, a, b, oa, of⟩ := s
  obtain ⟨hp, hs, ha⟩ := hInv
  rw [pcStep_pcC]
  dsimp only at hp hs ha h1 h2 ⊢
  refine ⟨?_, ?_, ?_⟩
  · dsimp only
    cases a <;> cases b <;> simp_all <;> omega
  · intro hi
    have hoa := ha (h1 hi)
    dsimp only
    cases a <;> cases b <;> simp_all <;> omega
  · intro hoany
    dsimp only at hoany
    simp only [decide_eq_true_eq] at hoany
    dsimp only
    cases a <;> cases b <;> simp_all <;> omega

theorem invPC_run :
    ∀ (ins : List Bool) (s : PCState), InvPC s → pcOkFrom pcC s ins = true →
      InvPC (pcRunFrom pcC s ins) := by
  intro ins
  induction ins with
  | nil => intro s h _; exact h
  | cons i rest ih =>
    intro s hInv hok
    simp only [pcOkFrom, Bool.and_eq_true, Bool.or_eq_true, Bool.not_eq_true'] at hok
    obtain ⟨⟨h1, h2⟩, h3⟩ := hok
    refine ih (pcStep pcC s i) ?_ h3
    refine invPC_preserved s i hInv ?_ ?_
    · intro hi
      rcases h1 with h | h
      · rw [hi] at h; cases h
      · exact h
    · intro hadd
      rcases h2 with h | h
      · rw [hadd] at h; cases h
      · simpa using h

/-- C2: for every trace of `PendingCounter(3, 5)` from reset in which
`i_remove` is only asserted while `o_any` reads true and the registered
increment is never pending while the backlog sits at the absolute ceiling
`max_pending_lohi = 9`, the backlog stays in the closed interval
`[0, 9]` — in particular a registered decrement is never applied at the
representable minimum 0 and a registered increment is never applied at the
representable maximum 15 of the 4-bit counter. -/
theorem c2_backlog_bounds (ins : List Bool) (hok : pcOk pcC ins = true) :
    (pcRun pcC ins).pending ≤ 9 ∧
      ((pcRun pcC ins).sub = true → 1 ≤ (pcRun pcC ins).pending) ∧
      ((pcRun pcC ins).add = true → (pcRun pcC ins).pending < 15) := by
  have h0 : InvPC (pcReset pcC) := by
    refine ⟨by decide, ?_, ?_⟩ <;> intro h <;> simp [pcReset] at h
  have h := invPC_run ins (pcReset pcC) h0 hok
  have hle : (pcRun pcC ins).pending ≤ 9 := h.1
  exact ⟨hle, h.2.1, fun _ => by omega⟩

theorem c2_backlog_bounds_witness :
    pcOk pcC [false, false, false] = true ∧
      (pcRun pcC [false, false, false]).pending ≤ 9 :=
  ⟨by decide, (c2_backlog_bounds [false, false, false] (by decide)).1⟩

/-- Input trace for the C3 counterexample: `i_remove` is asserted exactly at
tick 11, a tick on which the accrual timer of `PendingCounter(3, 5)` also
reads `period` (timer wraps every 4 ticks) and on which `o_any` reads true,
so the removal is legal. -/
def insC3 : List Bool :=
  [false, false, false, false, false, false, false, false, false, false, false, true]

/-- C3 counterexample: with `PendingCounter(3, 5)`, triggering an accrual
(timer at the period) and a removal on the same tick 11 leaves both the
`add` and the `sub` register set on tick 12, and the single backlog update
on tick 13 nets zero — the backlog is unchanged at 4, and stays 4 on tick
14 as well, so the two effects are applied in the same cycle and cancel
within a single update, contrary to the claimed one-cycle separation. -/
theorem c3_counterexample :
    (pcRun pcC insC3).add = true ∧ (pcRun pcC insC3).sub = true ∧
      (pcRun pcC insC3).pending = 4 ∧
      (pcStep pcC (pcRun pcC insC3) false).pending = 4 ∧
      (pcStep pcC (pcStep pcC (pcRun pcC insC3) false) false).pending = 4 ∧
      (pcRun pcC (List.take 11 insC3)).o_any = true := by decide

/-- C3 (amended): in the PendingCounter the registered increment and the
registered decrement have the same one-cycle latency.  If the timer reads
the period and `i_remove` is asserted on the same tick, then one tick later
both `add` and `sub` are set, and the backlog update on the tick after that
applies `+1 - 1`, leaving the backlog unchanged; an accrual alone on the
same tick would increment the backlog on exactly that same cycle (not one
cycle earlier), and a removal alone decrements on that same cycle too. -/
theorem c3_same_cycle_cancel (c : PendingCounter) (s : PCState) (i j : Bool)
    (ht : s.timer = c.period) (hi : i = true) :
    (pcStep c s i).add = true ∧ (pcStep c s i).sub = true ∧
      (pcStep c (pcStep c s i) j).pending = (pcStep c s i).pending := by
  subst hi
  refine ⟨by simp [pcStep, ht], by simp [pcStep], ?_⟩
  have hM : 0 < 2 ^ c.pendW := Nat.pos_pow_of_pos _ (by omega)
  set s1 := pcStep c s true with hs1
  have hlt : s1.pending < 2 ^ c.pendW := by
    rw [hs1]
    simp only [pcStep]
    exact Nat.mod_lt _ hM
  have hadd : s1.add = true := by rw [hs1]; simp [pcStep, ht]
  have hsub : s1.sub = true := by rw [hs1]; simp [pcStep]
  show (s1.pending + (if s1.add then 1 else 0) +
      (2 ^ c.pendW - (if s1.sub then 1 else 0))) % 2 ^ c.pendW = s1.pending
  rw [hadd, hsub]
  have he : s1.pending + (if true then 1 else 0) +
      (2 ^ c.pendW - (if true then 1 else 0)) = s1.pending + 2 ^ c.pendW := by
    simp only [if_true]
    omega
  rw [he, Nat.add_mod_right, Nat.mod_eq_of_lt hlt]

def sC3 : PCState :=
  { timer := 3, pending := 4, add := false, sub := false,
    o_any := true, o_full := false }

theorem c3_same_cycle_cancel_witness :
    sC3.timer = pcC.period ∧
      (pcStep pcC (pcStep pcC sC3 true) false).pending =
        (pcStep pcC sC3 true).pending :=
  ⟨by decide, (c3_same_cycle_cancel pcC sC3 true false rfl rfl).2.2⟩

/-- C10: the urgency outputs of the PendingCounter are registered one cycle
behind the backlog: on every tick `t + 1` of a trace from reset, `o_any`
equals `pending(t) > bias_lo` and `o_full` equals
`pending(t) >= max_pending + bias_lo`; and because the backlog resets to
the `bias_lo` floor, both outputs read false on the first two ticks after
reset (for any instance with a positive `max_pending`). -/
theorem c10_urgency_lag (c : PendingCounter) (h : 0 < c.max_pending)
    (ins : Nat → Bool) (t : Nat) :
    (pcTrace c ins (t + 1)).o_any = decide (c.bias_lo < (pcTrace c ins t).pending) ∧
      (pcTrace c ins (t + 1)).o_full =
        decide (c.max_pending + c.bias_lo ≤ (pcTrace c ins t).pending) ∧
      (pcTrace c ins 0).o_any = false ∧ (pcTrace c ins 0).o_full = false ∧
      (pcTrace c ins 1).o_any = false ∧ (pcTrace c ins 1).o_full = false := by
  have hsucc := pcTraceF_succ c t (pcReset c) ins
  have hsucc0 := pcTraceF_succ c 0 (pcReset c) ins
  have hmod : c.bias_lo % 2 ^ c.pendW ≤ c.bias_lo := Nat.mod_le _ _
  refine ⟨?_, ?_, rfl, rfl, ?_, ?_⟩
  · simp only [pcTrace]
    rw [hsucc]
    rfl
  · simp only [pcTrace]
    rw [hsucc]
    rfl
  · simp only [pcTrace]
    rw [hsucc0]
    simp only [pcTraceF, pcStep, pcReset]
    simp only [decide_eq_false_iff_not, not_lt]
    exact hmod
  · simp only [pcTrace]
    rw [hsucc0]
    simp only [pcTraceF, pcStep, pcReset]
    simp only [PendingCounter.max_pending_lo, decide_eq_false_iff_not, not_le]
    omega

theorem c10_urgency_lag_witness :
    (0 : Nat) < pcC.max_pending ∧
      (pcTrace pcC (fun _ => false) 1).o_any =
        decide (pcC.bias_lo < (pcTrace pcC (fun _ => false) 0).pending) ∧
      (pcTrace pcC (fun _ => false) 1).o_full = false :=
  ⟨by decide,
    (c10_urgency_lag pcC (by decide) (fun _ => false) 0).1,
    (c10_urgency_lag pcC (by decide) (fun _ => false) 0).2.2.2.2.2⟩

/-! ## SDRAMMode and its encoding (sdram.py lines 9-23)

`SDRAMMode.encode` looks `burst_length` up in
`{0: 0b111, 1: 0b000, 2: 0b001, 4: 0b010, 8: 0b011}`, the interleave flag in
`{False: 0, True: 1}` and `cas_latency` in `{2: 0b010, 3: 0b011}`, and ORs
the codes into bits 0-2, bit 3 and bits 4-6; a key missing from a dict
raises `KeyError`, modelled as `none`. -/

structure SDRAMMode where
  burst_length : Nat := 1
  burst_interleaved : Bool := false
  cas_latency : Nat := 0
deriving DecidableEq, Repr

def burstsLk (n : Nat) : Option Nat :=
  if n = 0 then some 0b111
  else if n = 1 then some 0b000
  else if n = 2 then some 0b001
  else if n = 4 then some 0b010
  else if n = 8 then some 0b011
  else none

def casLk (n : Nat) : Option Nat :=
  if n = 2 then some 0b010 else if n = 3 then some 0b011 else none

def SDRAMMode.encode (m : SDRAMMode) : Option Nat :=
  match burstsLk m.burst_length, casLk m.cas_latency with
  | some b, some c =>
    some ((b <<< 0) ||| ((if m.burst_interleaved then 1 else 0) <<< 3) ||| (c <<< 4))
  | _, _ => none

/-- C9: evaluation of the mode-register encoding.  Supported combinations
encode with the burst code in bits 0-2, the interleave flag in bit 3 and the
CAS code in bits 4-6 (for burst 1 / CAS 2 the value is 32 = 0b0100000, for
burst 8 / interleaved / CAS 3 it is 59 = 0b0111011); an unsupported burst
length (3) or CAS latency (4) makes the lookup fail. -/
theorem c9_encode_eval :
    SDRAMMode.encode { burst_length := 1, burst_interleaved := false, cas_latency := 2 } =
      some 32 ∧
    SDRAMMode.encode { burst_length := 8, burst_interleaved := true, cas_latency := 3 } =
      some 59 ∧
    SDRAMMode.encode { burst_length := 0, burst_interleaved := false, cas_latency := 2 } =
      some 39 ∧
    SDRAMMode.encode { burst_length := 3, burst_interleaved := false, cas_latency := 2 } =
      none ∧
    SDRAMMode.encode { burst_length := 1, burst_interleaved := false, cas_latency := 4 } =
      none ∧
    59 % 8 = 3 ∧ 59 / 8 % 2 = 1 ∧ 59 / 16 = 3 ∧ 32 / 16 = 2 := by decide

/-! ## Cmd (sdram.py lines 106-119)

The source `IntEnum` lists twelve command names with five-bit values;
because `WRIT` repeats the value of `READ` and `WRITA` the value of
`READA`, Python makes them aliases of the same member. -/

namespace Cmd

def DESL : Nat := 0b00000
def NOP : Nat := 0b10000
def BST : Nat := 0b10010
def READ : Nat := 0b10100
def READA : Nat := 0b10101
def WRIT : Nat := 0b10100
def WRITA : Nat := 0b10101
def ACT : Nat := 0b11000
def PRE : Nat := 0b11010
def PALL : Nat := 0b11011
def REF : Nat := 0b11100
def MRS : Nat := 0b11111

end Cmd

def cmdList : List Nat :=
  [Cmd.DESL, Cmd.NOP, Cmd.BST, Cmd.READ, Cmd.READA, Cmd.WRIT, Cmd.WRITA,
    Cmd.ACT, Cmd.PRE, Cmd.PALL, Cmd.REF, Cmd.MRS]

/-- C6: the command table does not give every command its own signature:
`WRIT` has the same five-bit value `0b10100` as `READ` and `WRITA` the
same value `0b10101` as `READA`, so READ/WRITE (and their auto-precharge
variants) are indistinguishable on the command pins — in particular they do
not differ in any bit, let alone the write-enable bit. -/
theorem c6_write_read_alias :
    Cmd.WRIT = Cmd.READ ∧ Cmd.WRITA = Cmd.READA ∧
      Cmd.READ = 0b10100 ∧ Cmd.READA = 0b10101 ∧
      decide (Cmd.READ.testBit 1 ≠ Cmd.WRIT.testBit 1) = false := by decide

/-- The address-bit-10 override of sdram.py line 212:
`m.d.comb += self.o_a[10].eq(self.addr[10] | self.cmd[4])`, as a function of
the command code and the requested bit 10. -/
def override_address_bit10 (cmd : Nat) (addr10 : Bool) : Bool :=
  addr10 || cmd.testBit 4

/-- C7 counterexample: the override also fires for commands outside the
claimed subset {READA, WRITA, PALL}: a NOP with requested bit 10 clear
still drives address bit 10 high, because bit 4 of `NOP = 0b10000` is set
(bit 4 of the command code is the bit the comment labels chip-select, and
it is set for every command except DESELECT). -/
theorem c7_counterexample :
    override_address_bit10 Cmd.NOP false = true ∧
      decide (Cmd.NOP ∈ ([Cmd.READA, Cmd.WRITA, Cmd.PALL] : List Nat)) = false := by
  decide

/-- C7 (amended): for every command of the table and every requested bit,
the controller drives address bit 10 high exactly when the requested bit is
set or the command is any command other than DESELECT — bit 4 of the code
(the MSB of the five-bit signature) is set for all eleven non-DESELECT
members, so the override subset is not {READA, WRITA, PALL} but everything
except DESELECT.  The mapping is still total, with no error condition. -/
theorem c7_override_all_but_desl (c : Nat) (hc : c ∈ cmdList) (b : Bool) :
    override_address_bit10 c b = (b || decide (c ≠ Cmd.DESL)) := by
  fin_cases hc <;> cases b <;> decide

theorem c7_override_all_but_desl_witness :
    Cmd.REF ∈ cmdList ∧
      override_address_bit10 Cmd.REF false = (false || decide (Cmd.REF ≠ Cmd.DESL)) :=
  ⟨by decide, c7_override_all_but_desl Cmd.REF (by decide) false⟩

/-! ## SDRAMController (sdram.py lines 98-267)

The per-tick semantics of `SDRAMController.elaborate`.  The main FSM is the
`m.Switch(self.state)`; the burst countdown `rw_timer` decrements every
tick it is nonzero, independent of the switch.  The `Idle` arm reads
`self.ref_counter.o_all` and `self.ref_counter.i_req`, two attributes that
do not exist on `PendingCounter` (its outputs are `o_any`/`o_full`, and the
request strobe is the controller input `i_req`), so Python elaboration
would raise `AttributeError`; the model reads the evident referents
`o_full` and `i_req`, supplied as free inputs.  Because `Idle`'s request
branch is a plain `m.If` rather than `m.Elif`, its assignments override the
refresh branch when both conditions hold (nmigen's later-statement-wins
rule); this is modelled by the layered `r1`/`r2` selection below.
`r_grant`/`o_grant`/`o_data_en` are not part of this state model: `r_grant`
is driven from two clock domains (see C8). -/

inductive State where
  | INIT_WAIT
  | INIT_REF
  | INIT_MRS
  | IDLE
  | ACT
  | WAIT
deriving DecidableEq, Repr

structure SDRAMConfig where
  word_bits : Nat
  col_bits : Nat
  row_bits : Nat
  bank_bits : Nat
  c_init : Nat
  c_cas : Nat
  c_rcd : Nat
  c_ras : Nat
  c_rc : Nat
  c_mrd : Nat
  ref_period : Nat
  ref_max_pending : Nat := 9
deriving DecidableEq, Repr

def SDRAMConfig.max_delay (c : SDRAMConfig) : Nat :=
  max (max c.c_cas c.c_rc) (max c.c_rcd c.c_mrd)

def SDRAMConfig.init_cycles (c : SDRAMConfig) : Nat :=
  c.c_init / c.max_delay + 1

/-- Width of `wait : Signal(range(max_delay))`. -/
def SDRAMConfig.waitW (c : SDRAMConfig) : Nat := bitLen (c.max_delay - 1)

/-- Width of `init_ctr : Signal(range(init_cycles + 1))`. -/
def SDRAMConfig.initW (c : SDRAMConfig) : Nat := bitLen c.init_cycles

/-- Width of `rw_timer : Signal(range(max(burst_length, cas_latency)))`. -/
def rwW (m : SDRAMMode) : Nat := bitLen (max m.burst_length m.cas_latency - 1)

structure CtrlState where
  state : State
  wait : Nat
  wait_state : State
  rw_timer : Nat
  init_ctr : Nat
  init_refs : Bool
  r_addr : Nat
  r_write : Bool
deriving DecidableEq, Repr

structure CtrlIn where
  i_req : Bool
  i_write : Bool
  i_addr : Nat
  o_any : Bool
  o_full : Bool
deriving DecidableEq, Repr

structure CtrlOut where
  cmd : Nat
  addr : Nat
  bank : Nat
deriving DecidableEq, Repr

/-- `SDRAMController.do` (lines 176-191): combinational command/address/bank
plus the transition into the generic `Wait` state (the Python `if wait > 0`
is evaluated at elaboration; `wait - 1` is truncated to the register
width). -/
def doCmd (cfg : SDRAMConfig) (cmd : Nat) (next : State) (wait : Nat)
    (bank addr : Nat) (s : CtrlState) : CtrlState × CtrlOut :=
  ({ s with
      state := if wait > 0 then State.WAIT else next,
      wait := if wait > 0 then (wait - 1) % 2 ^ cfg.waitW else s.wait,
      wait_state := if wait > 0 then next else s.wait_state },
   { cmd := cmd, addr := addr, bank := bank })

def ctrlStep (cfg : SDRAMConfig) (mode : SDRAMMode) (s : CtrlState)
    (inp : CtrlIn) : CtrlState × CtrlOut :=
  let s0 : CtrlState :=
    { s with rw_timer := if s.rw_timer ≠ 0 then s.rw_timer - 1 else s.rw_timer }
  let out0 : CtrlOut := { cmd := Cmd.NOP, addr := 0, bank := 0 }
  match s.state with
  | State.INIT_WAIT =>
    let s1 := { s0 with
      init_ctr := (s0.init_ctr + 2 ^ cfg.initW - 1) % 2 ^ cfg.initW }
    if s.init_ctr = 0 then doCmd cfg Cmd.PALL State.INIT_REF cfg.max_delay 0 0 s1
    else doCmd cfg Cmd.NOP State.INIT_WAIT cfg.max_delay 0 0 s1
  | State.INIT_REF =>
    doCmd cfg Cmd.REF (if s.init_refs then State.INIT_MRS else State.INIT_REF)
      cfg.c_rc 0 0 s0
  | State.INIT_MRS =>
    doCmd cfg Cmd.MRS State.IDLE cfg.c_mrd 0 (mode.encode.getD 0) s0
  | State.IDLE =>
    let r1 :=
      if inp.o_full then doCmd cfg Cmd.REF State.IDLE cfg.c_rc 0 0 s0 else (s0, out0)
    let r2 :=
      if inp.i_req then
        doCmd cfg Cmd.ACT State.ACT cfg.c_rcd
          ((inp.i_addr >>> (cfg.col_bits + cfg.row_bits)) % 2 ^ cfg.bank_bits)
          ((inp.i_addr >>> cfg.col_bits) % 2 ^ cfg.row_bits)
          { s0 with r_addr := inp.i_addr, r_write := inp.i_write }
      else r1
    if !inp.i_req && inp.o_any then doCmd cfg Cmd.REF State.IDLE cfg.c_rc 0 0 s0
    else r2
  | State.ACT =>
    if s.r_write then
      doCmd cfg Cmd.WRITA State.IDLE (max (cfg.c_ras - cfg.c_rcd) mode.burst_length)
        ((s.r_addr >>> (cfg.col_bits + cfg.row_bits)) % 2 ^ cfg.bank_bits)
        (s.r_addr % 2 ^ cfg.col_bits)
        { s0 with rw_timer := (mode.burst_length + 2 ^ rwW mode - 1) % 2 ^ rwW mode }
    else
      doCmd cfg Cmd.READA State.IDLE
        (max (cfg.c_ras - cfg.c_rcd) (mode.cas_latency + mode.burst_length))
        ((s.r_addr >>> (cfg.col_bits + cfg.row_bits)) % 2 ^ cfg.bank_bits)
        (s.r_addr % 2 ^ cfg.col_bits)
        { s0 with rw_timer := (mode.cas_latency + 2 ^ rwW mode - 1) % 2 ^ rwW mode }
  | State.WAIT =>
    ({ s0 with
        wait := (s0.wait + 2 ^ cfg.waitW - 1) % 2 ^ cfg.waitW,
        state := if s.wait = 0 then s.wait_state else State.WAIT },
     out0)

def ctrlNext (cfg : SDRAMConfig) (mode : SDRAMMode) (s : CtrlState)
    (inp : CtrlIn) : CtrlState :=
  (ctrlStep cfg mode s inp).1

def ctrlOut (cfg : SDRAMConfig) (mode : SDRAMMode) (s : CtrlState)
    (inp : CtrlIn) : CtrlOut :=
  (ctrlStep cfg mode s inp).2

def ctrlReset (cfg : SDRAMConfig) : CtrlState :=
  { state := State.INIT_WAIT, wait := 0, wait_state := State.INIT_WAIT,
    rw_timer := 0, init_ctr := cfg.init_cycles, init_refs := false,
    r_addr := 0, r_write := false }

def ctrlTraceF (cfg : SDRAMConfig) (mode : SDRAMMode) :
    CtrlState → (Nat → CtrlIn) → Nat → CtrlState
  | s, _, 0 => s
  | s, ins, t + 1 =>
    ctrlTraceF cfg mode (ctrlNext cfg mode s (ins 0)) (fun n => ins (n + 1)) t

/-- The Scenario-C configuration: `c_init = 20` with `max_delay = 5`, so
`init_cycles = 5`; geometry and refresh parameters are immaterial to the
initialization sequence. -/
def cfgC : SDRAMConfig :=
  { word_bits := 16, col_bits := 2, row_bits := 3, bank_bits := 2,
    c_init := 20, c_cas := 2, c_rcd := 2, c_ras := 3, c_rc := 5, c_mrd := 2,
    ref_period := 100 }

def modeC : SDRAMMode :=
  { burst_length := 1, burst_interleaved := false, cas_latency := 2 }

def noIn : CtrlIn :=
  { i_req := false, i_write := false, i_addr := 0, o_any := false, o_full := false }

def sIdleC : CtrlState := { ctrlReset cfgC with state := State.IDLE }

def sActC : CtrlState := { ctrlReset cfgC with state := State.ACT }

/-- Idle-state inputs with both `is_full()` and a request asserted. -/
def inpC1 : CtrlIn :=
  { i_req := true, i_write := false, i_addr := 0, o_any := false, o_full := true }

/-- C1: evaluation of the Idle arbitration at the failing input.  With
`is_full()` true and a request present on the same tick, the controller
issues ACTIVATE (not REFRESH) and leaves Idle towards Active: the request
branch of the source is a plain `m.If` whose assignments override the
`is_full()` refresh branch, inverting the claimed (a)-before-(b) priority
(and the branch conditions are read from attributes `ref_counter.o_all` /
`ref_counter.i_req` that do not even exist on the PendingCounter). -/
theorem c1_idle_priority_eval :
    (ctrlOut cfgC modeC sIdleC inpC1).cmd = Cmd.ACT ∧
      (ctrlNext cfgC modeC sIdleC inpC1).state = State.WAIT ∧
      (ctrlNext cfgC modeC sIdleC inpC1).wait_state = State.ACT ∧
      (ctrlNext cfgC modeC sIdleC inpC1).r_write = inpC1.i_write ∧
      decide (Cmd.ACT = Cmd.REF) = false := by decide

/-- Line 197 of the source drives `r_grant` in the sync domain: it is
cleared to 0 on every tick. -/
def r_grant_sync_rule : Bool := false

/-- Lines 214-219 drive the same `r_grant` in the comb domain: asserted
while the burst countdown is nonzero, the transaction is a read, and the
countdown's low two bits equal 1. -/
def r_grant_comb_rule (rw_timer : Nat) (r_write : Bool) : Bool :=
  decide (rw_timer ≠ 0) && !r_write && decide (rw_timer % 4 = 1)

/-- Lines 216-217: `o_data_en` is asserted (comb) on every tick the burst
countdown is nonzero while the latched transaction is a write. -/
def o_data_en_rule (rw_timer : Nat) (r_write : Bool) : Bool :=
  decide (rw_timer ≠ 0) && r_write

/-- C8: on a read with CAS latency 2, the tick after the READ command the
countdown holds 1, so the comb driver of `r_grant` demands 1 while the sync
driver demands 0 on the same signal — the two domains conflict (nmigen
rejects a signal driven from both `d.comb` and `d.sync`), so the grant
behaviour the claim describes cannot elaborate; the write-path
`o_data_en` rule does assert on every active countdown tick as claimed. -/
theorem c8_grant_driver_conflict :
    (ctrlNext cfgC modeC sActC noIn).rw_timer = modeC.cas_latency - 1 ∧
      (ctrlOut cfgC modeC sActC noIn).cmd = Cmd.READA ∧
      r_grant_comb_rule 1 false = true ∧
      r_grant_sync_rule = false ∧
      o_data_en_rule 1 true = true ∧ o_data_en_rule 0 true = false := by decide

/-- Inductive invariant for the initialization sequence of `cfgC`: because
`init_refs` is never assigned anywhere in `elaborate`, it stays at its
reset value 0, and the FSM can only ever sit in `InitWait`, `InitRefresh`
or a `Wait` state resuming into one of those two. -/
def InvC5 (s : CtrlState) : Prop :=
  s.state ∈ ([State.INIT_WAIT, State.INIT_REF, State.WAIT] : List State) ∧
    s.init_refs = false ∧
    (s.state = State.WAIT →
      s.wait_state ∈ ([State.INIT_WAIT, State.INIT_REF] : List State))

theorem invC5_preserved (s : CtrlState) (inp : CtrlIn) (h : InvC5 s) :
    InvC5 (ctrlNext cfgC modeC s inp) := by
  obtain ⟨st, w, ws, rwt, ic, irf, ra, rw⟩ := s
  obtain ⟨h1, h2, h3⟩ := h
  dsimp only at h1 h2 h3
  subst h2
  fin_cases h1
  · by_cases hic : ic = 0 <;>
      simp [InvC5, ctrlNext, ctrlStep, doCmd, hic, cfgC, SDRAMConfig.max_delay]
  · simp [InvC5, ctrlNext, ctrlStep, doCmd, cfgC]
  · by_cases hw : w = 0
    · have hws := h3 rfl
      fin_cases hws <;> simp [InvC5, ctrlNext, ctrlStep, hw]
    · have hws := h3 rfl
      simp only [List.mem_cons, List.not_mem_nil, or_false, List.mem_singleton] at hws
      simp [InvC5, ctrlNext, ctrlStep, hw]
      exact hws

theorem invC5_cmd (s : CtrlState) (inp : CtrlIn) (h : InvC5 s) :
    (ctrlOut cfgC modeC s inp).cmd ∈ ([Cmd.NOP, Cmd.PALL, Cmd.REF] : List Nat) := by
  obtain ⟨st, w, ws, rwt, ic, irf, ra, rw⟩ := s
  obtain ⟨h1, h2, h3⟩ := h
  dsimp only at h1 h2 h3
  subst h2
  fin_cases h1
  · by_cases hic : ic = 0 <;>
      simp [ctrlOut, ctrlStep, doCmd, hic, Cmd.NOP, Cmd.PALL, Cmd.REF]
  · simp [ctrlOut, ctrlStep, doCmd, Cmd.NOP, Cmd.REF]
  · simp [ctrlOut, ctrlStep, Cmd.NOP]

theorem invC5_trace :
    ∀ (t : Nat) (s : CtrlState) (ins : Nat → CtrlIn), InvC5 s →
      InvC5 (ctrlTraceF cfgC modeC s ins t) := by
  intro t
  induction t with
  | zero => intro s ins h; exact h
  | succ t ih =>
    intro s ins h
    exact ih (ctrlNext cfgC modeC s (ins 0)) (fun n => ins (n + 1))
      (invC5_preserved s (ins 0) h)

/-- C5: with `c_init = 20` and `max_delay = 5` the initialization counter is
`20 / 5 + 1 = 5` and the controller issues NOP on five `InitWait` visits
(ticks 0, 6, 12, 18, 24 — the claim predicts four), its first
PRECHARGE-ALL only at tick 30, and its first REFRESH at tick 36; moreover,
for every input trace and every tick, the state remains in
{InitWait, InitRefresh, Wait} and the command in {NOP, PRECHARGE-ALL,
REFRESH} — because `init_refs` is never assigned, the controller never
issues MODE-REGISTER-SET and never reaches Idle. -/
theorem c5_init_never_completes :
    (∀ (ins : Nat → CtrlIn) (t : Nat) (inp : CtrlIn),
      (ctrlTraceF cfgC modeC (ctrlReset cfgC) ins t).state ∈
          ([State.INIT_WAIT, State.INIT_REF, State.WAIT] : List State) ∧
        (ctrlOut cfgC modeC (ctrlTraceF cfgC modeC (ctrlReset cfgC) ins t) inp).cmd ∈
          ([Cmd.NOP, Cmd.PALL, Cmd.REF] : List Nat)) ∧
      cfgC.init_cycles = 5 ∧
      (ctrlOut cfgC modeC (ctrlTraceF cfgC modeC (ctrlReset cfgC) (fun _ => noIn) 24)
        noIn).cmd = Cmd.NOP ∧
      (ctrlTraceF cfgC modeC (ctrlReset cfgC) (fun _ => noIn) 24).state =
        State.INIT_WAIT ∧
      (ctrlTraceF cfgC modeC (ctrlReset cfgC) (fun _ => noIn) 24).init_ctr = 1 ∧
      (ctrlOut cfgC modeC (ctrlTraceF cfgC modeC (ctrlReset cfgC) (fun _ => noIn) 30)
        noIn).cmd = Cmd.PALL ∧
      (ctrlOut cfgC modeC (ctrlTraceF cfgC modeC (ctrlReset cfgC) (fun _ => noIn) 36)
        noIn).cmd = Cmd.REF := by
  have h0 : InvC5 (ctrlReset cfgC) := by
    refine ⟨by decide, rfl, ?_⟩
    intro h
    cases h
  refine ⟨?_, by decide, by decide, by decide, by decide, by decide, by decide⟩
  intro ins t inp
  have h := invC5_trace t (ctrlReset cfgC) ins h0
  exact ⟨h.1, invC5_cmd _ inp h⟩

theorem ctrlTraceF_add (cfg : SDRAMConfig) (mode : SDRAMMode) :
    ∀ (a : Nat) (s : CtrlState) (ins : Nat → CtrlIn) (b : Nat),
      ctrlTraceF cfg mode s ins (a + b) =
        ctrlTraceF cfg mode (ctrlTraceF cfg mode s ins a) (fun n => ins (n + a)) b := by
  intro a
  induction a with
  | zero =>
    intro s ins b
    rw [Nat.zero_add]
    rfl
  | succ a ih =>
    intro s ins b
    rw [Nat.succ_add]
    show ctrlTraceF cfg mode (ctrlNext cfg mode s (ins 0)) (fun n => ins (n + 1)) (a + b) = _
    rw [ih]
    rfl

/-- Traversal of the generic `Wait` state: entered with counter `k` (within
the register's range), the FSM sits in `Wait` for `k + 1` ticks and then
executes `wait_state`, with the latched request untouched. -/
theorem waitSeg (cfg : SDRAMConfig) (mode : SDRAMMode) :
    ∀ (k : Nat) (ins : Nat → CtrlIn) (s : CtrlState),
      s.state = State.WAIT → s.wait = k → k < 2 ^ cfg.waitW →
      ((ctrlTraceF cfg mode s ins (k + 1)).state = s.wait_state ∧
        (ctrlTraceF cfg mode s ins (k + 1)).r_write = s.r_write ∧
        (ctrlTraceF cfg mode s ins (k + 1)).r_addr = s.r_addr) ∧
      (∀ j, j ≤ k → (ctrlTraceF cfg mode s ins j).state = State.WAIT) := by
  intro k
  induction k with
  | zero =>
    intro ins s h1 h2 h3
    obtain ⟨st, w, ws, rwt, ic, irf, ra, rw⟩ := s
    dsimp only at h1 h2
    subst h1
    subst h2
    refine ⟨?_, ?_⟩
    · simp [ctrlTraceF, ctrlNext, ctrlStep]
    · intro j hj
      have hj0 : j = 0 := Nat.le_zero.mp hj
      subst hj0
      rfl
  | succ k ih =>
    intro ins s h1 h2 h3
    obtain ⟨st, w, ws, rwt, ic, irf, ra, rw⟩ := s
    dsimp only at h1 h2
    subst h1
    subst h2
    have hx : 0 < 2 ^ cfg.waitW := Nat.pos_pow_of_pos _ (by omega)
    have hm : (k + 1 + 2 ^ cfg.waitW - 1) % 2 ^ cfg.waitW = k := by
      have he : k + 1 + 2 ^ cfg.waitW - 1 = k + 2 ^ cfg.waitW := by omega
      rw [he, Nat.add_mod_right, Nat.mod_eq_of_lt (by omega)]
    have hs' : ctrlNext cfg mode
        ⟨State.WAIT, k + 1, ws, rwt, ic, irf, ra, rw⟩ (ins 0) =
        ⟨State.WAIT, k, ws, if rwt ≠ 0 then rwt - 1 else rwt, ic, irf, ra, rw⟩ := by
      simp [ctrlNext, ctrlStep, hm]
      exact Nat.mod_eq_of_lt (by omega)
    have ihres := ih (fun n => ins (n + 1))
      ⟨State.WAIT, k, ws, if rwt ≠ 0 then rwt - 1 else rwt, ic, irf, ra, rw⟩
      rfl rfl (by omega)
    have hstep : ∀ (u : Nat),
        ctrlTraceF cfg mode ⟨State.WAIT, k + 1, ws, rwt, ic, irf, ra, rw⟩ ins (u + 1) =
          ctrlTraceF cfg mode
            ⟨State.WAIT, k, ws, if rwt ≠ 0 then rwt - 1 else rwt, ic, irf, ra, rw⟩
            (fun n => ins (n + 1)) u := by
      intro u
      show ctrlTraceF cfg mode
          (ctrlNext cfg mode ⟨State.WAIT, k + 1, ws, rwt, ic, irf, ra, rw⟩ (ins 0))
          (fun n => ins (n + 1)) u = _
      rw [hs']
    refine ⟨?_, ?_⟩
    · rw [hstep (k + 1)]
      exact ihres.1
    · intro j hj
      match j with
      | 0 => rfl
      | j' + 1 =>
        rw [hstep j']
        exact ihres.2 j' (by omega)

/-- The `Idle` tick that accepts a request: ACTIVATE is issued and the FSM
enters `Wait` with counter `c_rcd - 1` resuming into `Active`, latching the
write flag and address. -/
theorem idleStep (cfg : SDRAMConfig) (mode : SDRAMMode) (s : CtrlState) (inp : CtrlIn)
    (hstate : s.state = State.IDLE) (hreq : inp.i_req = true)
    (hrcd : 0 < cfg.c_rcd) (hfit : cfg.c_rcd ≤ 2 ^ cfg.waitW) :
    (ctrlNext cfg mode s inp).state = State.WAIT ∧
      (ctrlNext cfg mode s inp).wait = cfg.c_rcd - 1 ∧
      (ctrlNext cfg mode s inp).wait_state = State.ACT ∧
      (ctrlNext cfg mode s inp).r_write = inp.i_write ∧
      (ctrlNext cfg mode s inp).r_addr = inp.i_addr ∧
      (ctrlOut cfg mode s inp).cmd = Cmd.ACT := by
  obtain ⟨st, w, ws, rwt, ic, irf, ra, rw⟩ := s
  obtain ⟨ir, iw, ia, oa, ofl⟩ := inp
  dsimp only at hstate hreq
  subst hstate
  subst hreq
  simp [ctrlNext, ctrlOut, ctrlStep, doCmd, hrcd]
  exact Nat.mod_eq_of_lt (by omega)

/-- The `Active` tick: the read or write command is issued and the FSM
enters `Wait` with counter `wv - 1` resuming into `Idle`, where `wv` is the
burst-dependent wait of the issued command. -/
theorem actStep (cfg : SDRAMConfig) (mode : SDRAMMode) (s : CtrlState) (inp : CtrlIn)
    (wv : Nat) (hstate : s.state = State.ACT)
    (hwv : wv = if s.r_write then max (cfg.c_ras - cfg.c_rcd) mode.burst_length
      else max (cfg.c_ras - cfg.c_rcd) (mode.cas_latency + mode.burst_length))
    (hwv1 : 0 < wv) (hfit : wv ≤ 2 ^ cfg.waitW) :
    (ctrlNext cfg mode s inp).state = State.WAIT ∧
      (ctrlNext cfg mode s inp).wait = wv - 1 ∧
      (ctrlNext cfg mode s inp).wait_state = State.IDLE := by
  obtain ⟨st, w, ws, rwt, ic, irf, ra, rw⟩ := s
  dsimp only at hstate hwv
  subst hstate
  cases rw with
  | false =>
    rw [if_neg (by simp)] at hwv
    subst hwv
    simp [ctrlNext, ctrlStep, doCmd, hwv1]
    exact Nat.mod_eq_of_lt (by omega)
  | true =>
    rw [if_pos rfl] at hwv
    subst hwv
    simp [ctrlNext, ctrlStep, doCmd, hwv1]
    exact Nat.mod_eq_of_lt (by omega)

/-- C4 (amended): from `Idle` with a request present, the controller issues
ACTIVATE and, for any later inputs, is back in `Idle` exactly
`c_rcd + wv + 2` ticks after the ACTIVATE command — not `c_rcd + wv` as
claimed — where `wv = max(c_ras - c_rcd, burst_length)` for a write and
`wv = max(c_ras - c_rcd, cas_latency + burst_length)` for a read: each
`do(..., wait=w)` costs `w + 1` ticks from the command to the execution of
the resume state.  In between it is never in `Idle`: it sits in `Wait`,
executes `Active` (issuing the read/write command) `c_rcd + 1` ticks after
ACTIVATE, and waits again.  Requires `c_rcd ≥ 1`, `wv ≥ 1` and both wait
values to fit the wait register. -/
theorem c4_round_trip (cfg : SDRAMConfig) (mode : SDRAMMode) (s : CtrlState)
    (ins : Nat → CtrlIn) (wv : Nat)
    (hstate : s.state = State.IDLE) (hreq : (ins 0).i_req = true)
    (hwv : wv = if (ins 0).i_write then max (cfg.c_ras - cfg.c_rcd) mode.burst_length
      else max (cfg.c_ras - cfg.c_rcd) (mode.cas_latency + mode.burst_length))
    (hrcd : 0 < cfg.c_rcd) (hfit1 : cfg.c_rcd ≤ 2 ^ cfg.waitW)
    (hwv1 : 0 < wv) (hfit2 : wv ≤ 2 ^ cfg.waitW) :
    (ctrlTraceF cfg mode s ins (cfg.c_rcd + wv + 2)).state = State.IDLE ∧
      (ctrlOut cfg mode s (ins 0)).cmd = Cmd.ACT ∧
      (∀ t, 0 < t → t < cfg.c_rcd + wv + 2 →
        (ctrlTraceF cfg mode s ins t).state = State.WAIT ∨
          (ctrlTraceF cfg mode s ins t).state = State.ACT) := by
  have h1 := idleStep cfg mode s (ins 0) hstate hreq hrcd hfit1
  let A : CtrlState := ctrlNext cfg mode s (ins 0)
  let ins1 : Nat → CtrlIn := fun n => ins (n + 1)
  have hA1 : A.state = State.WAIT := h1.1
  have hA2 : A.wait = cfg.c_rcd - 1 := h1.2.1
  have hseg1 := waitSeg cfg mode (cfg.c_rcd - 1) ins1 A hA1 hA2 (by omega)
  have hc1 : cfg.c_rcd - 1 + 1 = cfg.c_rcd := by omega
  rw [hc1] at hseg1
  let B : CtrlState := ctrlTraceF cfg mode A ins1 cfg.c_rcd
  let ins2 : Nat → CtrlIn := fun n => ins1 (n + cfg.c_rcd)
  have hB : B.state = State.ACT := hseg1.1.1.trans h1.2.2.1
  have hBw : B.r_write = (ins 0).i_write := hseg1.1.2.1.trans h1.2.2.2.1
  have hwv2 : wv = if B.r_write then max (cfg.c_ras - cfg.c_rcd) mode.burst_length
      else max (cfg.c_ras - cfg.c_rcd) (mode.cas_latency + mode.burst_length) := by
    rw [hBw]
    exact hwv
  have hact := actStep cfg mode B (ins2 0) wv hB hwv2 hwv1 hfit2
  let C : CtrlState := ctrlNext cfg mode B (ins2 0)
  let ins3 : Nat → CtrlIn := fun n => ins2 (n + 1)
  have hC1 : C.state = State.WAIT := hact.1
  have hC2 : C.wait = wv - 1 := hact.2.1
  have hseg2 := waitSeg cfg mode (wv - 1) ins3 C hC1 hC2 (by omega)
  have hc2 : wv - 1 + 1 = wv := by omega
  rw [hc2] at hseg2
  have E0 : ∀ u, ctrlTraceF cfg mode s ins (u + 1) = ctrlTraceF cfg mode A ins1 u :=
    fun _ => rfl
  have E1 : ∀ v, ctrlTraceF cfg mode A ins1 (cfg.c_rcd + v) =
      ctrlTraceF cfg mode B ins2 v :=
    fun v => ctrlTraceF_add cfg mode cfg.c_rcd A ins1 v
  have E2 : ∀ v, ctrlTraceF cfg mode B ins2 (v + 1) = ctrlTraceF cfg mode C ins3 v :=
    fun _ => rfl
  refine ⟨?_, h1.2.2.2.2.2, ?_⟩
  · have e2 : cfg.c_rcd + wv + 2 = cfg.c_rcd + (wv + 1) + 1 := by omega
    rw [e2, E0 (cfg.c_rcd + (wv + 1)), E1 (wv + 1), E2 wv]
    exact hseg2.1.1.trans hact.2.2
  · intro t ht0 htT
    obtain ⟨u, rfl⟩ : ∃ u, t = u + 1 := ⟨t - 1, by omega⟩
    rw [E0 u]
    rcases lt_trichotomy u cfg.c_rcd with hu | hu | hu
    · left
      exact hseg1.2 u (by omega)
    · right
      rw [hu]
      exact hB
    · left
      obtain ⟨v, rfl⟩ : ∃ v, u = cfg.c_rcd + (v + 1) :=
        ⟨u - cfg.c_rcd - 1, by omega⟩
      rw [E1 (v + 1), E2 v]
      exact hseg2.2 v (by omega)

def insC4 : Nat → CtrlIn :=
  fun t => if t = 0 then
    { i_req := true, i_write := false, i_addr := 0, o_any := false, o_full := false }
  else noIn

/-- C4 counterexample: with `c_rcd = 2`, `c_ras = 3`, CAS latency 2 and
burst length 1 a read has `max(c_ras - c_rcd, cas + burst) = 3`, so the
claim predicts a return to `Idle` exactly `2 + 3 = 5` ticks after the
ACTIVATE issued at tick 0; the embedded controller is still in `Wait` at
tick 5 (and at tick 6) and only re-enters `Idle` at tick 7 — ACTIVATE at
tick 0, READ-WITH-AUTO-PRECHARGE at tick 3 = `c_rcd + 1`, `Idle` at
`c_rcd + 3 + 2`. -/
theorem c4_counterexample :
    (ctrlOut cfgC modeC sIdleC (insC4 0)).cmd = Cmd.ACT ∧
      (ctrlOut cfgC modeC (ctrlTraceF cfgC modeC sIdleC insC4 3) (insC4 3)).cmd =
        Cmd.READA ∧
      (ctrlTraceF cfgC modeC sIdleC insC4 5).state = State.WAIT ∧
      (ctrlTraceF cfgC modeC sIdleC insC4 6).state = State.WAIT ∧
      (ctrlTraceF cfgC modeC sIdleC insC4 7).state = State.IDLE ∧
      cfgC.c_rcd + max (cfgC.c_ras - cfgC.c_rcd)
        (modeC.cas_latency + modeC.burst_length) = 5 := by decide

theorem c4_round_trip_witness :
    (0 : Nat) < cfgC.c_rcd ∧
      (ctrlTraceF cfgC modeC sIdleC insC4 (cfgC.c_rcd + 3 + 2)).state = State.IDLE ∧
      (ctrlOut cfgC modeC sIdleC (insC4 0)).cmd = Cmd.ACT :=
  ⟨by decide,
    (c4_round_trip cfgC modeC sIdleC insC4 3 rfl rfl (by decide) (by decide)
      (by decide) (by decide) (by decide)).1,
    (c4_round_trip cfgC modeC sIdleC insC4 3 rfl rfl (by decide) (by decide)
      (by decide) (by decide) (by decide)).2.1⟩

end Blip
